import Mathlib

/-!
Shallow embedding of the EIP-712 structured-data / authorization-signature
subsystem of the synapse-sdk repository, together with its session-key
permission tracker.

Embedded source files:
* `src/utils/eip712.ts` (given as `src/unnamed/part_002`): the static
  `EIP712_TYPES` schema registry and `getEIP712TypeString`.
* `src/pdp/auth.ts`: the `PDPAuthHelper` signing operations
  (`signCreateDataSet`, `signAddPieces`, `signSchedulePieceRemovals`,
  `signDeleteDataSet`).
* `src/session/key.ts`: the `SessionKey` permission tracker
  (`fetchExpiries`).

External collaborators (the ethers library: keccak-256 hashing,
`TypedDataEncoder.hash`, signature parsing, the signing back ends, the
PieceCID parser and the multicall transport) are modelled as explicit
function parameters or as structured data, so every theorem quantifies
over them.
-/

set_option maxRecDepth 100000

/-- Decidable equality for `Except`, used to evaluate the embedded
functions on concrete inputs. -/
instance decEqExcept {ε α : Type} [DecidableEq ε] [DecidableEq α] :
    DecidableEq (Except ε α) := fun x y =>
  match x, y with
  | .error e, .error f =>
    if h : e = f then .isTrue (by rw [h]) else .isFalse (fun he => h (Except.error.inj he))
  | .error _, .ok _ => .isFalse (fun he => nomatch he)
  | .ok _, .error _ => .isFalse (fun he => nomatch he)
  | .ok a, .ok b =>
    if h : a = b then .isTrue (by rw [h]) else .isFalse (fun he => h (Except.ok.inj he))

namespace Synapse

/-- One field of an EIP-712 struct type: `{ name, type }` as in the source. -/
structure TypeField where
  name : String
  type : String
deriving DecidableEq, Repr

/-- The static schema registry `EIP712_TYPES` from `src/utils/eip712.ts`,
kept in the source's declaration order. -/
def EIP712_TYPES : List (String × List TypeField) :=
  [ ("MetadataEntry",
      [ { name := "key", type := "string" },
        { name := "value", type := "string" } ]),
    ("CreateDataSet",
      [ { name := "clientDataSetId", type := "uint256" },
        { name := "payee", type := "address" },
        { name := "metadata", type := "MetadataEntry[]" } ]),
    ("Cid",
      [ { name := "data", type := "bytes" } ]),
    ("PieceMetadata",
      [ { name := "pieceIndex", type := "uint256" },
        { name := "metadata", type := "MetadataEntry[]" } ]),
    ("AddPieces",
      [ { name := "clientDataSetId", type := "uint256" },
        { name := "firstAdded", type := "uint256" },
        { name := "pieceData", type := "Cid[]" },
        { name := "pieceMetadata", type := "PieceMetadata[]" } ]),
    ("SchedulePieceRemovals",
      [ { name := "clientDataSetId", type := "uint256" },
        { name := "pieceIds", type := "uint256[]" } ]),
    ("DeleteDataSet",
      [ { name := "clientDataSetId", type := "uint256" } ]) ]

/-- Does the string end with the two characters of an array suffix?  This
is `t.endsWith('[]')`, computed on the character list. -/
def endsWithArraySuffix (t : String) : Bool :=
  t.data.reverse.take 2 == [']', '[']

/-- Base type of a field: `arg.type.endsWith('[]') ? arg.type.slice(0, -2) : arg.type`. -/
def stripArraySuffix (t : String) : String :=
  if endsWithArraySuffix t then String.mk (t.data.take (t.data.length - 2)) else t

/-- Byte-order comparison of two character lists; on the ASCII type names
of the registry this agrees with the `localeCompare` order the source
sorts by. -/
def charListLeb : List Char → List Char → Bool
  | [], _ => true
  | _ :: _, [] => false
  | x :: xs, y :: ys =>
    if x.toNat < y.toNat then true
    else if y.toNat < x.toNat then false
    else charListLeb xs ys

/-- Lexicographic string comparison used to model `localeCompare`. -/
def strLeb (a b : String) : Bool :=
  charListLeb a.data b.data

/-- Insert one `(name, fragment)` entry into a list sorted by name. -/
def insertByName (p : String × String) : List (String × String) → List (String × String)
  | [] => [p]
  | q :: rest => if strLeb p.1 q.1 then p :: q :: rest else q :: insertByName p rest

/-- Insertion sort by type name, modelling
`.sort(([a], [b]) => a.localeCompare(b))`: the names are pairwise
distinct, so any comparison sort returns this same list. -/
def sortByName : List (String × String) → List (String × String)
  | [] => []
  | p :: rest => insertByName p (sortByName rest)

/-- One type's fragment: backtick-free rendering of
`typeName(type0 name0,type1 name1,...)` exactly as built in
`getEIP712TypeString`. -/
def typeFragment (typeName : String) (args : List TypeField) : String :=
  typeName ++ "(" ++ String.intercalate "," (args.map fun a => a.type ++ " " ++ a.name) ++ ")"

/-- Own property names of `Object.prototype` (ECMA-262), inherited by
the `EIP712_TYPES` object literal.  The JS `in` operator walks the
prototype chain, so `name in EIP712_TYPES` is true for these names even
though they are not keys of the registry. -/
def OBJECT_PROTOTYPE_KEYS : List String :=
  ["constructor", "hasOwnProperty", "isPrototypeOf", "propertyIsEnumerable",
   "toLocaleString", "toString", "valueOf",
   "__defineGetter__", "__defineSetter__", "__lookupGetter__", "__lookupSetter__",
   "__proto__"]

/-- The value of the JS property access `EIP712_TYPES[name]`: either an
own data property (a field array of the registry) or a value inherited
from `Object.prototype` (a function or object, in particular not an
array). -/
inductive JsProp where
  | fields (args : List TypeField)
  | protoValue
deriving DecidableEq, Repr

/-- JS property access `EIP712_TYPES[name]`, including the prototype
chain: own keys first, then the inherited `Object.prototype` names,
otherwise undefined. -/
def jsGetEIP712 (name : String) : Option JsProp :=
  match EIP712_TYPES.lookup name with
  | some args => some (.fields args)
  | none => if name ∈ OBJECT_PROTOTYPE_KEYS then some .protoValue else none

/-- The JS `in` operator on the registry: `name in EIP712_TYPES`. -/
def jsInEIP712Types (name : String) : Bool :=
  (jsGetEIP712 name).isSome

/-- Failure modes of `getEIP712TypeString`: the guard throw for a root
name failing the `in` test, the JS TypeError raised by `args.map(...)`
when the property access returned an inherited `Object.prototype` value
(not an array, so it has no `map`), and the (unreachable) throw when
the root fragment is missing from the built map. -/
inductive TypeStringError where
  | SchemaNotFound (rootType : String)
  | TypeErrorThrown (typeName : String)
  | BuildFailed (rootType : String)
deriving DecidableEq, Repr

/-- The recursive `collectType` closure of `getEIP712TypeString`: skip a
type that is already in the map or fails the `in` test, otherwise read
`EIP712_TYPES[typeName]` — a JS TypeError if that is an inherited
prototype value rather than a field array — record the fragment and
recurse into each field's base type, short-circuiting on a thrown
error.  The map keeps insertion order, like a JS `Map`.  The source
recurses without a guard; the registry is acyclic with reference chains
of length at most three, so a fuel of 8 is never exhausted on paths the
source can take. -/
def collectType (fuel : Nat) (typeName : String) (typeMap : List (String × String)) :
    Except TypeStringError (List (String × String)) :=
  match fuel with
  | 0 => .ok typeMap
  | fuel + 1 =>
    if (typeMap.lookup typeName).isSome then .ok typeMap
    else
      match jsGetEIP712 typeName with
      | none => .ok typeMap
      | some .protoValue => .error (.TypeErrorThrown typeName)
      | some (.fields args) =>
        let typeMap := typeMap ++ [(typeName, typeFragment typeName args)]
        args.foldl
          (fun acc a =>
            match acc with
            | .error e => .error e
            | .ok m => collectType fuel (stripArraySuffix a.type) m)
          (.ok typeMap)

/-- `getEIP712TypeString` from `src/utils/eip712.ts`: guard with the JS
`in` test, collect (propagating a thrown TypeError), then emit the root
fragment first and every other collected fragment sorted by type name
(ascending, which for these ASCII names is what `localeCompare`
yields), concatenated with no separator. -/
def getEIP712TypeString (rootType : String) : Except TypeStringError String :=
  if ¬ jsInEIP712Types rootType then
    .error (.SchemaNotFound rootType)
  else
    match collectType 8 rootType [] with
    | .error e => .error e
    | .ok typeMap =>
      match typeMap.lookup rootType with
      | none => .error (.BuildFailed rootType)
      | some rootString =>
        let otherStrings :=
          (sortByName (typeMap.filter fun p => p.1 != rootType)).map (fun p => p.2)
        .ok (rootString ++ String.join otherStrings)

/-! ## Embedding of `src/pdp/auth.ts` (`PDPAuthHelper`)

The ethers library is an external collaborator: `TypedDataEncoder.hash`,
the two signing back ends, `Signature.from` and the PieceCID parser are
modelled as fields of a `SignEnv` record of oracle functions, and every
theorem quantifies over them.  `isMetaMaskSigner` probes the runtime
shape of the signer object (key material, provider shape, browser
globals); its outcome is modelled as the boolean `useMetaMask`. -/

/-- A metadata key/value pair (`MetadataEntry` from `src/types.ts`). -/
structure MetadataEntry where
  key : String
  value : String
deriving DecidableEq, Repr

/-- A parsed PieceCID; only its raw byte encoding (`pieceCid.bytes`, a
`Uint8Array`) is consumed by the payload builder. -/
structure PieceCID where
  bytes : List Nat
deriving DecidableEq, Repr

/-- An element of `pieceDataArray`: either an already-parsed PieceCID or
its canonical string form (`PieceCID[] | string[]`). -/
inductive PieceInput where
  | parsed (cid : PieceCID)
  | strForm (s : String)
deriving DecidableEq, Repr

/-- One entry of `formattedPieceData`, matching the Solidity `Cids.Cid`
struct: `{ data: pieceCid.bytes }`. -/
structure CidStruct where
  data : List Nat
deriving DecidableEq, Repr

/-- One entry of the built `pieceMetadata` array:
`{ pieceIndex: i, metadata: metadata[i] }`. -/
structure PieceMetadataEntry where
  pieceIndex : Nat
  metadata : List MetadataEntry
deriving DecidableEq, Repr

/-- The EIP-712 domain built in the `PDPAuthHelper` constructor. -/
structure TypedDataDomain where
  name : String
  version : String
  chainId : Int
  verifyingContract : String
deriving DecidableEq, Repr

/-- The constructor's domain record:
`{ name: 'FilecoinWarmStorageService', version: '1', chainId, verifyingContract }`. -/
def makeDomain (serviceContractAddress : String) (chainId : Int) : TypedDataDomain :=
  { name := "FilecoinWarmStorageService", version := "1", chainId := chainId,
    verifyingContract := serviceContractAddress }

/-- A JS value passed to the typed-data hash and to the signing back
ends: bigints, display strings, byte strings, arrays and field records. -/
inductive TDValue where
  | intV (n : Int)
  | strV (s : String)
  | bytesV (b : List Nat)
  | arrV (xs : List TDValue)
  | objV (fields : List (String × TDValue))

/-- Hex digit character, lower case, as `ethers.hexlify` prints it. -/
def hexDigit (n : Nat) : Char :=
  if n < 10 then Char.ofNat (48 + n) else Char.ofNat (87 + n)

/-- One byte as two hex characters. -/
def hexlifyByte (b : Nat) : List Char :=
  [hexDigit (b / 16 % 16), hexDigit (b % 16)]

/-- `ethers.hexlify`: a 0x-prefixed lower-case hex rendering of a byte
string, used only for the MetaMask display value. -/
def hexlify (bs : List Nat) : String :=
  "0x" ++ String.mk ((bs.map hexlifyByte).flatten)

/-- The external collaborators of `PDPAuthHelper`, one oracle per ethers
entry point, plus the outcome of the `isMetaMaskSigner` capability probe. -/
structure SignEnv where
  useMetaMask : Bool
  hashTypedData : TypedDataDomain → List (String × List TypeField) → TDValue → Nat
  signTypedData : TypedDataDomain → List (String × List TypeField) → TDValue → String
  signWithMetaMask : List (String × List TypeField) → TDValue → String
  sigV : String → Int
  sigR : String → String
  sigS : String → String
  asPieceCID : String → Option PieceCID

/-- The `AuthSignature` result record; `signedData` is the digest
returned by `ethers.TypedDataEncoder.hash`, modelled as the oracle's
`Nat` output. -/
structure AuthSignature where
  signature : String
  v : Int
  r : String
  s : String
  signedData : Nat
deriving DecidableEq, Repr

/-- Field list of a registry type, as referenced by
`EIP712_TYPES.CreateDataSet` and friends. -/
def typesOf (n : String) : List TypeField :=
  (EIP712_TYPES.lookup n).getD []

/-- The `types` record passed by `signCreateDataSet`. -/
def createDataSetTypes : List (String × List TypeField) :=
  [("CreateDataSet", typesOf "CreateDataSet"), ("MetadataEntry", typesOf "MetadataEntry")]

/-- The `types` record passed by `signAddPieces`. -/
def addPiecesTypes : List (String × List TypeField) :=
  [("AddPieces", typesOf "AddPieces"), ("Cid", typesOf "Cid"),
   ("PieceMetadata", typesOf "PieceMetadata"), ("MetadataEntry", typesOf "MetadataEntry")]

/-- The `types` record passed by `signSchedulePieceRemovals`. -/
def schedulePieceRemovalsTypes : List (String × List TypeField) :=
  [("SchedulePieceRemovals", typesOf "SchedulePieceRemovals")]

/-- The `types` record passed by `signDeleteDataSet`. -/
def deleteDataSetTypes : List (String × List TypeField) :=
  [("DeleteDataSet", typesOf "DeleteDataSet")]

/-- A metadata entry as a typed-data value. -/
def metadataEntryValue (m : MetadataEntry) : TDValue :=
  .objV [("key", .strV m.key), ("value", .strV m.value)]

/-- The canonical (bigint-valued) `CreateDataSet` value object, in the
field order the source writes it. -/
def createDataSetValue (clientDataSetId : Int) (payee : String)
    (metadata : List MetadataEntry) : TDValue :=
  .objV [("clientDataSetId", .intV clientDataSetId),
         ("metadata", .arrV (metadata.map metadataEntryValue)),
         ("payee", .strV payee)]

/-- The MetaMask display variant: `clientDataSetId.toString()`. -/
def createDataSetDisplayValue (clientDataSetId : Int) (payee : String)
    (metadata : List MetadataEntry) : TDValue :=
  .objV [("clientDataSetId", .strV (toString clientDataSetId)),
         ("metadata", .arrV (metadata.map metadataEntryValue)),
         ("payee", .strV payee)]

/-- A built `pieceMetadata` entry as a typed-data value. -/
def pieceMetadataValue (p : PieceMetadataEntry) : TDValue :=
  .objV [("pieceIndex", .intV p.pieceIndex),
         ("metadata", .arrV (p.metadata.map metadataEntryValue))]

/-- The canonical (bigint-valued) `AddPieces` value object. -/
def addPiecesValue (clientDataSetId firstAdded : Int) (pd : List CidStruct)
    (pm : List PieceMetadataEntry) : TDValue :=
  .objV [("clientDataSetId", .intV clientDataSetId),
         ("firstAdded", .intV firstAdded),
         ("pieceData", .arrV (pd.map fun c => .objV [("data", .bytesV c.data)])),
         ("pieceMetadata", .arrV (pm.map pieceMetadataValue))]

/-- The MetaMask display variant of the `AddPieces` value: ids as
strings, piece bytes hexlified. -/
def addPiecesDisplayValue (clientDataSetId firstAdded : Int) (pd : List CidStruct)
    (pm : List PieceMetadataEntry) : TDValue :=
  .objV [("clientDataSetId", .strV (toString clientDataSetId)),
         ("firstAdded", .strV (toString firstAdded)),
         ("pieceData", .arrV (pd.map fun c => .objV [("data", .strV (hexlify c.data))])),
         ("pieceMetadata", .arrV (pm.map pieceMetadataValue))]

/-- The canonical `SchedulePieceRemovals` value object. -/
def schedulePieceRemovalsValue (clientDataSetId : Int) (pieceIds : List Int) : TDValue :=
  .objV [("clientDataSetId", .intV clientDataSetId),
         ("pieceIds", .arrV (pieceIds.map fun i => .intV i))]

/-- The MetaMask display variant of `SchedulePieceRemovals`. -/
def schedulePieceRemovalsDisplayValue (clientDataSetId : Int) (pieceIds : List Int) : TDValue :=
  .objV [("clientDataSetId", .strV (toString clientDataSetId)),
         ("pieceIds", .arrV (pieceIds.map fun i => .strV (toString i)))]

/-- The canonical `DeleteDataSet` value object. -/
def deleteDataSetValue (clientDataSetId : Int) : TDValue :=
  .objV [("clientDataSetId", .intV clientDataSetId)]

/-- The MetaMask display variant of `DeleteDataSet`. -/
def deleteDataSetDisplayValue (clientDataSetId : Int) : TDValue :=
  .objV [("clientDataSetId", .strV (toString clientDataSetId))]

/-- Errors of `signAddPieces`, with the thrown messages: the metadata
length check and the PieceCID parse failure. -/
inductive AuthError where
  | InvalidArgument (msg : String)
  | InvalidPieceCID (msg : String)
deriving DecidableEq, Repr

/-- `typeof piece === 'string' ? asPieceCID(piece) : piece`. -/
def resolvePieceInput (parse : String → Option PieceCID) : PieceInput → Option PieceCID
  | .parsed cid => some cid
  | .strForm s => parse s

/-- The `signAddPieces` loop that builds `formattedPieceData` and
`pieceMetadata` in lock step, index `i` starting at 0; the first piece
whose CID cannot be resolved aborts the build with the thrown message.
`metadata` always has the same length as the remaining piece list when
called from `signAddPieces` (it is validated or defaulted first). -/
def buildPieces (parse : String → Option PieceCID) (i : Nat) :
    List PieceInput → List (List MetadataEntry) →
    Except AuthError (List CidStruct × List PieceMetadataEntry)
  | [], _ => .ok ([], [])
  | piece :: rest, metadata =>
    match resolvePieceInput parse piece with
    | none => .error (.InvalidPieceCID "Invalid PieceCID: null")
    | some pieceCid =>
      match buildPieces parse (i + 1) rest metadata.tail with
      | .error e => .error e
      | .ok (pd, pm) =>
        .ok ({ data := pieceCid.bytes } :: pd,
             { pieceIndex := i, metadata := metadata.headD [] } :: pm)

/-- The part of `signAddPieces` after metadata validation: build the
piece arrays, dispatch to one of the two signing paths, and recompute
`signedData` from the canonical bigint value. -/
def signAddPiecesBody (env : SignEnv) (domain : TypedDataDomain)
    (clientDataSetId firstPieceId : Int) (pieceDataArray : List PieceInput)
    (metadata : List (List MetadataEntry)) : Except AuthError AuthSignature :=
  match buildPieces env.asPieceCID 0 pieceDataArray metadata with
  | .error e => .error e
  | .ok (formattedPieceData, pieceMetadata) =>
    let signature :=
      if env.useMetaMask then
        env.signWithMetaMask addPiecesTypes
          (addPiecesDisplayValue clientDataSetId firstPieceId formattedPieceData pieceMetadata)
      else
        env.signTypedData domain addPiecesTypes
          (addPiecesValue clientDataSetId firstPieceId formattedPieceData pieceMetadata)
    let signedData :=
      env.hashTypedData domain addPiecesTypes
        (addPiecesValue clientDataSetId firstPieceId formattedPieceData pieceMetadata)
    .ok { signature := signature, v := env.sigV signature, r := env.sigR signature,
          s := env.sigS signature, signedData := signedData }

/-- `signAddPieces` from `src/pdp/auth.ts`: an explicitly empty (or
omitted, the TS default) metadata array is replaced by one empty list
per piece; a non-empty metadata array whose length differs from the
piece list's throws before anything is built or signed. -/
def signAddPieces (env : SignEnv) (domain : TypedDataDomain)
    (clientDataSetId firstPieceId : Int) (pieceDataArray : List PieceInput)
    (metadata : List (List MetadataEntry)) : Except AuthError AuthSignature :=
  if metadata.length = 0 then
    signAddPiecesBody env domain clientDataSetId firstPieceId pieceDataArray
      (List.replicate pieceDataArray.length [])
  else if metadata.length ≠ pieceDataArray.length then
    .error (.InvalidArgument "metadata length must match pieceDataArray length")
  else
    signAddPiecesBody env domain clientDataSetId firstPieceId pieceDataArray metadata

/-- `signCreateDataSet` from `src/pdp/auth.ts`. -/
def signCreateDataSet (env : SignEnv) (domain : TypedDataDomain)
    (clientDataSetId : Int) (payee : String) (metadata : List MetadataEntry) : AuthSignature :=
  let signature :=
    if env.useMetaMask then
      env.signWithMetaMask createDataSetTypes
        (createDataSetDisplayValue clientDataSetId payee metadata)
    else
      env.signTypedData domain createDataSetTypes
        (createDataSetValue clientDataSetId payee metadata)
  let signedData :=
    env.hashTypedData domain createDataSetTypes
      (createDataSetValue clientDataSetId payee metadata)
  { signature := signature, v := env.sigV signature, r := env.sigR signature,
    s := env.sigS signature, signedData := signedData }

/-- `signSchedulePieceRemovals` from `src/pdp/auth.ts`. -/
def signSchedulePieceRemovals (env : SignEnv) (domain : TypedDataDomain)
    (clientDataSetId : Int) (pieceIds : List Int) : AuthSignature :=
  let signature :=
    if env.useMetaMask then
      env.signWithMetaMask schedulePieceRemovalsTypes
        (schedulePieceRemovalsDisplayValue clientDataSetId pieceIds)
    else
      env.signTypedData domain schedulePieceRemovalsTypes
        (schedulePieceRemovalsValue clientDataSetId pieceIds)
  let signedData :=
    env.hashTypedData domain schedulePieceRemovalsTypes
      (schedulePieceRemovalsValue clientDataSetId pieceIds)
  { signature := signature, v := env.sigV signature, r := env.sigR signature,
    s := env.sigS signature, signedData := signedData }

/-- `signDeleteDataSet` from `src/pdp/auth.ts`. -/
def signDeleteDataSet (env : SignEnv) (domain : TypedDataDomain)
    (clientDataSetId : Int) : AuthSignature :=
  let signature :=
    if env.useMetaMask then
      env.signWithMetaMask deleteDataSetTypes (deleteDataSetDisplayValue clientDataSetId)
    else
      env.signTypedData domain deleteDataSetTypes (deleteDataSetValue clientDataSetId)
  let signedData :=
    env.hashTypedData domain deleteDataSetTypes (deleteDataSetValue clientDataSetId)
  { signature := signature, v := env.sigV signature, r := env.sigR signature,
    s := env.sigS signature, signedData := signedData }

/-! ## Embedding of `src/session/key.ts` (`SessionKey.fetchExpiries`)

The multicall transport and the on-chain registry are external
collaborators: the batched call is modelled as structured data and the
registry's answer as a response oracle mapping the issued batch to an
ordered list of `{ success, returnData }` entries. -/

/-- Modelled from the spec: `EIP712_TYPE_HASHES`, imported by
`src/session/key.ts` from `src/utils/eip712.ts`, is not among the given
source files.  The spec defines a permission type hash as the type hash
(a keccak-256 digest) of the operation's encoded type string, and an
earlier revision in the sources computes it as
`ethers.id(getEIP712TypeString(...))`.  keccak-256 is an external
primitive; it is modelled as an injective tagging of the hashed string,
which preserves everything the tracker uses: the four keys are distinct
values determined by the four encoded type strings. -/
def ethersId (s : String) : String :=
  "keccak256:" ++ s

/-- Encoded type string of a registry type, empty for unknown names
(never hit for the four operation names). -/
def typeStringOrEmpty (n : String) : String :=
  ((getEIP712TypeString n).toOption).getD ""

/-- `EIP712_TYPE_HASHES.CreateDataSet`. -/
def CREATE_DATA_SET_TYPEHASH : String :=
  ethersId (typeStringOrEmpty "CreateDataSet")

/-- `EIP712_TYPE_HASHES.AddPieces`. -/
def ADD_PIECES_TYPEHASH : String :=
  ethersId (typeStringOrEmpty "AddPieces")

/-- `EIP712_TYPE_HASHES.SchedulePieceRemovals`. -/
def SCHEDULE_PIECE_REMOVALS_TYPEHASH : String :=
  ethersId (typeStringOrEmpty "SchedulePieceRemovals")

/-- `EIP712_TYPE_HASHES.DeleteDataSet`. -/
def DELETE_DATA_SET_TYPEHASH : String :=
  ethersId (typeStringOrEmpty "DeleteDataSet")

/-- The fixed four-permission list from `src/session/key.ts`. -/
def PDP_PERMISSIONS : List String :=
  [CREATE_DATA_SET_TYPEHASH, ADD_PIECES_TYPEHASH,
   SCHEDULE_PIECE_REMOVALS_TYPEHASH, DELETE_DATA_SET_TYPEHASH]

/-- The arguments ABI-encoded by
`registryInterface.encodeFunctionData('authorizationExpiry', [owner, signer, permission])`,
kept structured. -/
structure AuthExpiryCallData where
  owner : String
  signer : String
  permission : String
deriving DecidableEq, Repr

/-- One entry of the multicall batch: `{ target, allowFailure, callData }`. -/
structure Agg3Call where
  target : String
  allowFailure : Bool
  callData : AuthExpiryCallData
deriving DecidableEq, Repr

/-- One entry of the multicall response: `{ success, returnData }`. -/
structure Agg3Result where
  success : Bool
  returnData : List Nat
deriving DecidableEq, Repr

/-- Failure modes of the decode loop: the ethers ABI decoder throwing on
short data, and indexing past the end of the response list. -/
inductive FetchError where
  | decodeOutOfBounds
  | missingResult
deriving DecidableEq, Repr

/-- Big-endian byte-list value. -/
def beBytesToNat (bs : List Nat) : Nat :=
  bs.foldl (fun acc b => acc * 256 + b) 0

/-- `registryInterface.decodeFunctionResult('authorizationExpiry', returnData)[0]`:
ABI-decode one `uint256`, the first 32-byte word big-endian.  Data
shorter than one word makes the ethers decoder throw (data
out-of-bounds); a failed sub-call with plain revert data is exactly that
case. -/
def decodeAuthorizationExpiry (returnData : List Nat) : Except FetchError Nat :=
  if returnData.length < 32 then .error .decodeOutOfBounds
  else .ok (beBytesToNat (returnData.take 32))

/-- The store loop of `fetchExpiries`:
`expiries[PDP_PERMISSIONS[i]] = decode(results[i].returnData)` for
`i < permissions.length`, written with the number of remaining
iterations as the recursion argument.  Note the key is taken
from the global `PDP_PERMISSIONS`, not from the requested `permissions`
list; for `i ≥ 4` the JS key is the string form of `undefined`.  The
record is modelled as the ordered assignment list (all keys written in
one refresh of at most four permissions are distinct). -/
def storeExpiries (results : List Agg3Result) (i : Nat) :
    Nat → Except FetchError (List (String × Nat))
  | 0 => .ok []
  | remaining + 1 =>
    match results[i]? with
    | none => .error .missingResult
    | some res =>
      match decodeAuthorizationExpiry res.returnData with
      | .error e => .error e
      | .ok v =>
        match storeExpiries results (i + 1) remaining with
        | .error e => .error e
        | .ok rest => .ok ((PDP_PERMISSIONS.getD i "undefined", v) :: rest)

/-- `fetchExpiries` from `src/session/key.ts`: build one sub-call per
requested permission (each with `allowFailure: true`), submit the batch
through the response oracle, then decode and store each entry.  The
resolved owner, signer and registry addresses are passed in (their
lookup is independent and side-effect free). -/
def fetchExpiries (ownerAddress signerAddress registryAddress : String)
    (respond : List Agg3Call → List Agg3Result)
    (permissions : List String) : Except FetchError (List (String × Nat)) :=
  let calls := permissions.map fun permission =>
    { target := registryAddress, allowFailure := true,
      callData := { owner := ownerAddress, signer := signerAddress,
                    permission := permission } : Agg3Call }
  let results := respond calls
  storeExpiries results 0 permissions.length

/-! ## Concrete sample data used by witnesses and counterexamples -/

/-- A concrete oracle environment: constant hash and signatures, and a
parser accepting exactly one string form. -/
def sampleEnv : SignEnv :=
  { useMetaMask := false,
    hashTypedData := fun _ _ _ => 7,
    signTypedData := fun _ _ _ => "localsig",
    signWithMetaMask := fun _ _ => "mmsig",
    sigV := fun _ => 27,
    sigR := fun _ => "r0",
    sigS := fun _ => "s0",
    asPieceCID := fun s => if s = "bafkgood" then some { bytes := [1, 85] } else none }

/-- A concrete domain. -/
def sampleDomain : TypedDataDomain :=
  makeDomain "0x1234" 314

/-- The result `signAddPieces` returns under `sampleEnv`. -/
def sampleAddPiecesResult : AuthSignature :=
  { signature := "localsig", v := 27, r := "r0", s := "s0", signedData := 7 }

/-- Big-endian 32-byte encoding of a word, for sample return data. -/
def word32 (n : Nat) : List Nat :=
  (List.range 32).map fun k => n / 256 ^ (31 - k) % 256

/-- A concrete registry state: a distinct expiry per permission. -/
def sampleRegistryExpiry (p : String) : Nat :=
  if p = CREATE_DATA_SET_TYPEHASH then 1111
  else if p = ADD_PIECES_TYPEHASH then 2222
  else if p = SCHEDULE_PIECE_REMOVALS_TYPEHASH then 3333
  else if p = DELETE_DATA_SET_TYPEHASH then 4444
  else 0

/-- A response oracle answering every sub-call successfully with the
sample registry expiry of the permission that sub-call asked about. -/
def respondAllOk (calls : List Agg3Call) : List Agg3Result :=
  calls.map fun c =>
    { success := true, returnData := word32 (sampleRegistryExpiry c.callData.permission) }

/-- A response oracle marking exactly the `AddPieces` sub-call as failed
(empty revert data), all others successful. -/
def respondAddPiecesFailed (calls : List Agg3Call) : List Agg3Result :=
  calls.map fun c =>
    if c.callData.permission = ADD_PIECES_TYPEHASH then
      { success := false, returnData := [] }
    else
      { success := true, returnData := word32 (sampleRegistryExpiry c.callData.permission) }

end Synapse

namespace Synapse

/-! ## Shared lemmas -/

/-- A name whose association-list lookup succeeds is one of the listed
keys. -/
theorem lookup_isSome_mem_keys {β : Type} :
    ∀ (l : List (String × β)) (a : String),
      (l.lookup a).isSome → a ∈ l.map Prod.fst := by
  intro l
  induction l with
  | nil => intro a h; simp [List.lookup] at h
  | cons p rest ihm =>
    intro a h
    cases p with
    | mk pk pv =>
      rw [List.lookup] at h
      cases hk : a == pk with
      | true =>
        have ha : a = pk := eq_of_beq hk
        simp [ha]
      | false =>
        rw [hk] at h
        simp only [List.map_cons]
        exact List.mem_cons_of_mem _ (ihm a h)

/-- After validation, the metadata list entry for piece `k` is the list
at index `k`; `headD` and `tail` walk in lock step with the index. -/
theorem headD_eq_getD_zero (md : List (List MetadataEntry)) : md.headD [] = md.getD 0 [] := by
  cases md <;> simp [List.getD]

/-- Companion of `headD_eq_getD_zero` for the recursive step. -/
theorem tail_getD (md : List (List MetadataEntry)) (k : Nat) :
    md.tail.getD k [] = md.getD (k + 1) [] := by
  cases md <;> simp [List.getD]

/-- Full description of a successful `buildPieces` run: both built
arrays have one entry per piece, piece `k` carries index `i + k` and
the metadata list at position `k`. -/
theorem buildPieces_ok_spec (parse : String → Option PieceCID) :
    ∀ (ps : List PieceInput) (i : Nat) (md : List (List MetadataEntry))
      (pd : List CidStruct) (pm : List PieceMetadataEntry),
      buildPieces parse i ps md = .ok (pd, pm) →
      pd.length = ps.length ∧ pm.length = ps.length ∧
        ∀ k, k < pm.length →
          pm[k]? = some { pieceIndex := i + k, metadata := md.getD k [] } := by
  intro ps
  induction ps with
  | nil =>
    intro i md pd pm h
    rw [buildPieces] at h
    injection h with h
    injection h with h1 h2
    subst h1; subst h2
    refine ⟨rfl, rfl, ?_⟩
    intro k hk
    simp at hk
  | cons p rest ihp =>
    intro i md pd pm h
    rw [buildPieces] at h
    cases hr : resolvePieceInput parse p with
    | none => rw [hr] at h; exact Except.noConfusion h
    | some pieceCid =>
      rw [hr] at h
      cases hb : buildPieces parse (i + 1) rest md.tail with
      | error e => rw [hb] at h; exact Except.noConfusion h
      | ok pr =>
        rw [hb] at h
        cases pr with
        | mk pd1 pm1 =>
          injection h with h
          injection h with h1 h2
          subst h1; subst h2
          obtain ⟨hl1, hl2, hidx⟩ := ihp (i + 1) md.tail pd1 pm1 hb
          refine ⟨by simpa using hl1, by simpa using hl2, ?_⟩
          intro k hk
          cases k with
          | zero =>
            rw [List.getElem?_cons_zero, headD_eq_getD_zero, Nat.add_zero]
          | succ k1 =>
            have hk1 : k1 < pm1.length := by simpa using hk
            have := hidx k1 hk1
            simp only [List.getElem?_cons_succ]
            rw [this, tail_getD]
            have harith : i + 1 + k1 = i + (k1 + 1) := by omega
            rw [harith]

/-- `buildPieces` never throws the metadata length message. -/
theorem buildPieces_no_invalidArgument (parse : String → Option PieceCID) :
    ∀ (ps : List PieceInput) (i : Nat) (md : List (List MetadataEntry)) (msg : String),
      buildPieces parse i ps md ≠ .error (.InvalidArgument msg) := by
  intro ps
  induction ps with
  | nil => intro i md msg h; exact Except.noConfusion h
  | cons p rest ihp =>
    intro i md msg h
    rw [buildPieces] at h
    cases hr : resolvePieceInput parse p with
    | none =>
      rw [hr] at h
      injection h with h
      exact AuthError.noConfusion h
    | some pieceCid =>
      rw [hr] at h
      cases hb : buildPieces parse (i + 1) rest md.tail with
      | error e =>
        rw [hb] at h
        injection h with h
        subst h
        exact ihp (i + 1) md.tail msg hb
      | ok pr => rw [hb] at h; exact Except.noConfusion h

/-- A piece list containing an unresolvable element makes `buildPieces`
throw the PieceCID message. -/
theorem buildPieces_bad_elem (parse : String → Option PieceCID) :
    ∀ (ps : List PieceInput) (i : Nat) (md : List (List MetadataEntry)),
      (∃ p ∈ ps, resolvePieceInput parse p = none) →
      buildPieces parse i ps md = .error (.InvalidPieceCID "Invalid PieceCID: null") := by
  intro ps
  induction ps with
  | nil => intro i md h; obtain ⟨p, hp, _⟩ := h; simp at hp
  | cons q rest ihp =>
    intro i md h
    rw [buildPieces]
    cases hr : resolvePieceInput parse q with
    | none => rfl
    | some pieceCid =>
      obtain ⟨p, hp, hnone⟩ := h
      have hprest : p ∈ rest := by
        cases List.mem_cons.mp hp with
        | inl he => exfalso; rw [he, hr] at hnone; exact Option.noConfusion hnone
        | inr hr2 => exact hr2
      rw [ihp (i + 1) md.tail ⟨p, hprest, hnone⟩]

/-- On a successful run, `signAddPiecesBody` reports as `signedData`
exactly the digest oracle applied to the domain, the `AddPieces` type
set and the canonical bigint value of the built payload. -/
theorem signAddPiecesBody_ok_spec (env : SignEnv) (domain : TypedDataDomain)
    (cdsId fpId : Int) (ps : List PieceInput) (md : List (List MetadataEntry))
    (res : AuthSignature) (h : signAddPiecesBody env domain cdsId fpId ps md = .ok res) :
    ∃ pd pm, buildPieces env.asPieceCID 0 ps md = .ok (pd, pm) ∧
      res.signedData
        = env.hashTypedData domain addPiecesTypes (addPiecesValue cdsId fpId pd pm) := by
  unfold signAddPiecesBody at h
  cases hb : buildPieces env.asPieceCID 0 ps md with
  | error e => rw [hb] at h; exact Except.noConfusion h
  | ok pr =>
    rw [hb] at h
    cases pr with
    | mk pd pm =>
      refine ⟨pd, pm, rfl, ?_⟩
      injection h with h
      rw [← h]

/-- An error of `buildPieces` propagates unchanged through
`signAddPiecesBody`. -/
theorem signAddPiecesBody_error (env : SignEnv) (domain : TypedDataDomain)
    (cdsId fpId : Int) (ps : List PieceInput) (md : List (List MetadataEntry))
    (e : AuthError) (h : buildPieces env.asPieceCID 0 ps md = .error e) :
    signAddPiecesBody env domain cdsId fpId ps md = .error e := by
  unfold signAddPiecesBody
  rw [h]

end Synapse

namespace Synapse

/-! ## Claim theorems -/

/-- C1: For every signing operation (signCreateDataSet, signAddPieces,
signSchedulePieceRemovals, signDeleteDataSet) on valid inputs, the
signedData field of the returned result equals the EIP-712 digest
independently recomputed from the domain, the operation's type set and
the canonical bigint-valued value object — for every oracle environment,
hence regardless of whether the local-key path or the external-agent
(MetaMask) path produced the signature. -/
theorem signedData_matches_recomputed_digest (env : SignEnv) (domain : TypedDataDomain)
    (cdsId fpId : Int) (payee : String) (meta : List MetadataEntry)
    (ps : List PieceInput) (pmeta : List (List MetadataEntry)) (pieceIds : List Int)
    (res : AuthSignature) :
    (signCreateDataSet env domain cdsId payee meta).signedData
        = env.hashTypedData domain createDataSetTypes (createDataSetValue cdsId payee meta)
    ∧ (signAddPieces env domain cdsId fpId ps pmeta = .ok res →
        ∃ pd pm,
          buildPieces env.asPieceCID 0 ps
              (if pmeta.length = 0 then List.replicate ps.length [] else pmeta)
            = .ok (pd, pm)
          ∧ res.signedData
              = env.hashTypedData domain addPiecesTypes (addPiecesValue cdsId fpId pd pm))
    ∧ (signSchedulePieceRemovals env domain cdsId pieceIds).signedData
        = env.hashTypedData domain schedulePieceRemovalsTypes
            (schedulePieceRemovalsValue cdsId pieceIds)
    ∧ (signDeleteDataSet env domain cdsId).signedData
        = env.hashTypedData domain deleteDataSetTypes (deleteDataSetValue cdsId) := by
  refine ⟨rfl, ?_, rfl, rfl⟩
  intro h
  unfold signAddPieces at h
  by_cases h0 : pmeta.length = 0
  · rw [if_pos h0] at h
    rw [if_pos h0]
    exact signAddPiecesBody_ok_spec env domain cdsId fpId ps _ res h
  · rw [if_neg h0] at h
    rw [if_neg h0]
    by_cases h1 : pmeta.length ≠ ps.length
    · rw [if_pos h1] at h; exact Except.noConfusion h
    · rw [if_neg h1] at h
      exact signAddPiecesBody_ok_spec env domain cdsId fpId ps _ res h

/-- Witness for C1: the theorem applied to the sample environment, a
one-piece `AddPieces` call whose result evaluates concretely. -/
theorem signedData_matches_recomputed_digest_check :
    (signCreateDataSet sampleEnv sampleDomain 0 "0xpayee" []).signedData
        = sampleEnv.hashTypedData sampleDomain createDataSetTypes
            (createDataSetValue 0 "0xpayee" [])
    ∧ (∃ pd pm,
        buildPieces sampleEnv.asPieceCID 0 [PieceInput.parsed { bytes := [1, 85] }]
            (if ([] : List (List MetadataEntry)).length = 0
             then List.replicate [PieceInput.parsed { bytes := [1, 85] }].length []
             else [])
          = .ok (pd, pm)
        ∧ sampleAddPiecesResult.signedData
            = sampleEnv.hashTypedData sampleDomain addPiecesTypes
                (addPiecesValue 0 1 pd pm)) := by
  have h := signedData_matches_recomputed_digest sampleEnv sampleDomain 0 1 "0xpayee" []
    [PieceInput.parsed { bytes := [1, 85] }] [] [] sampleAddPiecesResult
  exact ⟨h.1, h.2.1 (by decide)⟩

/-- C2: encodeType applied to root type AddPieces returns exactly the
canonical flattened type string: root fragment first, then every
distinct transitively-referenced custom type's fragment sorted by type
name with no separator. -/
theorem getEIP712TypeString_addPieces_flattened :
    getEIP712TypeString "AddPieces" =
      .ok "AddPieces(uint256 clientDataSetId,uint256 firstAdded,Cid[] pieceData,PieceMetadata[] pieceMetadata)Cid(bytes data)MetadataEntry(string key,string value)PieceMetadata(uint256 pieceIndex,MetadataEntry[] metadata)" := by
  decide

end Synapse

namespace Synapse

/-- C3: the claim says a refresh in which the registry marks exactly one
permission's sub-call as failed still completes, storing unknown for
that permission and correct timestamps for the other three.  The code
never reads the per-entry success flag: decoding the failed sub-call's
empty return data throws, so the whole refresh aborts and nothing is
stored — while the same batch with all sub-calls succeeding completes
with all four timestamps.  This evaluates the embedded `fetchExpiries`
at exactly that failing input. -/
theorem fetchExpiries_subcall_failure_throws :
    fetchExpiries "0xowner" "0xsigner" "0xreg" respondAddPiecesFailed PDP_PERMISSIONS
      = .error .decodeOutOfBounds
    ∧ fetchExpiries "0xowner" "0xsigner" "0xreg" respondAllOk PDP_PERMISSIONS
      = .ok [(CREATE_DATA_SET_TYPEHASH, 1111), (ADD_PIECES_TYPEHASH, 2222),
             (SCHEDULE_PIECE_REMOVALS_TYPEHASH, 3333), (DELETE_DATA_SET_TYPEHASH, 4444)] := by
  constructor
  · decide
  · decide

/-- C4: the claim says each decoded timestamp is keyed by the permission
for which the sub-call was issued.  The store loop keys entry `i` by
`PDP_PERMISSIONS[i]` instead of `permissions[i]`: requesting only the
`AddPieces` permission issues the `AddPieces` sub-call (the registry
answers 2222, the `AddPieces` expiry) but stores that timestamp under
the `CreateDataSet` key, a different permission. -/
theorem fetchExpiries_subset_misskeyed :
    fetchExpiries "0xowner" "0xsigner" "0xreg" respondAllOk [ADD_PIECES_TYPEHASH]
      = .ok [(CREATE_DATA_SET_TYPEHASH, 2222)]
    ∧ sampleRegistryExpiry ADD_PIECES_TYPEHASH = 2222
    ∧ CREATE_DATA_SET_TYPEHASH ≠ ADD_PIECES_TYPEHASH := by
  refine ⟨by decide, by decide, by decide⟩

/-- C5: with no (equivalently, an empty) metadata argument the call
proceeds with one empty metadata list per piece; a non-empty metadata
argument whose length differs from the piece list's fails with the
InvalidArgument message before anything is built or signed. -/
theorem signAddPieces_metadata_rules (env : SignEnv) (domain : TypedDataDomain)
    (cdsId fpId : Int) (ps : List PieceInput) (pmeta : List (List MetadataEntry)) :
    (signAddPieces env domain cdsId fpId ps []
        = signAddPiecesBody env domain cdsId fpId ps (List.replicate ps.length []))
    ∧ (∀ pd pm, buildPieces env.asPieceCID 0 ps (List.replicate ps.length []) = .ok (pd, pm) →
          pm.length = ps.length ∧ ∀ q ∈ pm, q.metadata = ([] : List MetadataEntry))
    ∧ (pmeta.length ≠ 0 → pmeta.length ≠ ps.length →
        signAddPieces env domain cdsId fpId ps pmeta
          = .error (.InvalidArgument "metadata length must match pieceDataArray length")) := by
  refine ⟨rfl, ?_, ?_⟩
  · intro pd pm h
    obtain ⟨hpd, hpm, hidx⟩ := buildPieces_ok_spec env.asPieceCID ps 0 (List.replicate ps.length []) pd pm h
    refine ⟨hpm, ?_⟩
    intro q hq
    obtain ⟨k, hk, hget⟩ := List.mem_iff_getElem.mp hq
    have h2 := hidx k hk
    rw [List.getElem?_eq_getElem hk, hget] at h2
    have h3 := Option.some.inj h2
    rw [h3]
    show (List.replicate ps.length ([] : List MetadataEntry)).getD k [] = []
    by_cases hkp : k < ps.length
    · simp [List.getD, List.getElem?_replicate, hkp]
    · simp [List.getD, List.getElem?_replicate, hkp]
  · intro h0 h1
    unfold signAddPieces
    rw [if_neg h0, if_pos h1]

/-- Witness for C5: both branches exercised concretely — the defaulted
empty-metadata call and a two-element metadata list against one piece. -/
theorem signAddPieces_metadata_rules_check :
    (signAddPieces sampleEnv sampleDomain 0 1 [PieceInput.parsed { bytes := [1, 85] }] []
        = signAddPiecesBody sampleEnv sampleDomain 0 1 [PieceInput.parsed { bytes := [1, 85] }]
            (List.replicate [PieceInput.parsed { bytes := [1, 85] }].length []))
    ∧ (([{ pieceIndex := 0, metadata := [] }] : List PieceMetadataEntry).length
          = [PieceInput.parsed { bytes := [1, 85] }].length
        ∧ ∀ q ∈ ([{ pieceIndex := 0, metadata := [] }] : List PieceMetadataEntry),
            q.metadata = ([] : List MetadataEntry))
    ∧ signAddPieces sampleEnv sampleDomain 0 1 [PieceInput.parsed { bytes := [1, 85] }] [[], []]
        = .error (.InvalidArgument "metadata length must match pieceDataArray length") := by
  have h := signAddPieces_metadata_rules sampleEnv sampleDomain 0 1
    [PieceInput.parsed { bytes := [1, 85] }] [[], []]
  exact ⟨h.1, h.2.1 [{ data := [1, 85] }] [{ pieceIndex := 0, metadata := [] }] (by decide),
         h.2.2 (by decide) (by decide)⟩

end Synapse

namespace Synapse

/-- C6 counterexample: a call whose piece list holds an unparsable
string content-identifier but whose explicitly supplied metadata list
has a mismatched length fails with the metadata InvalidArgument message
— not with the PieceCID message the claim requires for every such call,
because the metadata length check runs before any piece is parsed. -/
theorem signAddPieces_badCid_masked_by_metadata_check :
    signAddPieces sampleEnv sampleDomain 0 1 [PieceInput.strForm "notacid"] [[], []]
      = .error (.InvalidArgument "metadata length must match pieceDataArray length")
    ∧ sampleEnv.asPieceCID "notacid" = none
    ∧ ∀ msg, signAddPieces sampleEnv sampleDomain 0 1 [PieceInput.strForm "notacid"] [[], []]
        ≠ .error (.InvalidPieceCID msg) := by
  have h : signAddPieces sampleEnv sampleDomain 0 1 [PieceInput.strForm "notacid"] [[], []]
      = .error (.InvalidArgument "metadata length must match pieceDataArray length") := by decide
  refine ⟨h, by decide, ?_⟩
  intro msg hc
  rw [h] at hc
  have h2 := Except.error.inj hc
  exact AuthError.noConfusion h2

/-- C6 amended: when the metadata length check passes (metadata omitted,
empty, or of matching length), a piece list containing a string that
does not parse as a PieceCID makes the call fail with the
InvalidPieceCID message, and no signature is produced. -/
theorem signAddPieces_badCid_fails (env : SignEnv) (domain : TypedDataDomain)
    (cdsId fpId : Int) (ps : List PieceInput) (pmeta : List (List MetadataEntry))
    (hmd : pmeta.length = 0 ∨ pmeta.length = ps.length)
    (hbad : ∃ s, PieceInput.strForm s ∈ ps ∧ env.asPieceCID s = none) :
    signAddPieces env domain cdsId fpId ps pmeta
      = .error (.InvalidPieceCID "Invalid PieceCID: null") := by
  obtain ⟨s, hmem, hnone⟩ := hbad
  have hresolve : ∃ p ∈ ps, resolvePieceInput env.asPieceCID p = none :=
    ⟨PieceInput.strForm s, hmem, by simpa [resolvePieceInput] using hnone⟩
  unfold signAddPieces
  by_cases h0 : pmeta.length = 0
  · rw [if_pos h0]
    exact signAddPiecesBody_error env domain cdsId fpId ps _ _
      (buildPieces_bad_elem env.asPieceCID ps 0 _ hresolve)
  · rw [if_neg h0]
    have h1 : pmeta.length = ps.length := by
      cases hmd with
      | inl he => exact absurd he h0
      | inr he => exact he
    rw [if_neg (by rw [h1]; exact fun hne => hne rfl)]
    exact signAddPiecesBody_error env domain cdsId fpId ps _ _
      (buildPieces_bad_elem env.asPieceCID ps 0 _ hresolve)

/-- Witness for the amended C6: one unparsable string piece with an
omitted metadata argument. -/
theorem signAddPieces_badCid_fails_check :
    signAddPieces sampleEnv sampleDomain 0 1 [PieceInput.strForm "notacid"] []
      = .error (.InvalidPieceCID "Invalid PieceCID: null") :=
  signAddPieces_badCid_fails sampleEnv sampleDomain 0 1 [PieceInput.strForm "notacid"] []
    (Or.inl rfl) ⟨"notacid", by decide, by decide⟩

/-- C7: every successfully built AddPieces payload has one pieceMetadata
entry per pieceData entry, and entry `k` carries pieceIndex `k`
(indices start at 0 as in the source loop). -/
theorem buildPieces_pieceMetadata_invariant (parse : String → Option PieceCID)
    (ps : List PieceInput) (md : List (List MetadataEntry))
    (pd : List CidStruct) (pm : List PieceMetadataEntry)
    (h : buildPieces parse 0 ps md = .ok (pd, pm)) :
    pm.length = pd.length ∧
    ∀ k, k < pm.length → ∃ e, pm[k]? = some e ∧ e.pieceIndex = k := by
  obtain ⟨hpd, hpm, hidx⟩ := buildPieces_ok_spec parse ps 0 md pd pm h
  refine ⟨hpm.trans hpd.symm, ?_⟩
  intro k hk
  exact ⟨_, hidx k hk, by simp⟩

/-- Witness for C7: a concrete two-piece build. -/
theorem buildPieces_pieceMetadata_invariant_check :
    ([{ pieceIndex := 0, metadata := [] }, { pieceIndex := 1, metadata := [] }] :
        List PieceMetadataEntry).length
      = ([{ data := [1, 85] }, { data := [9] }] : List CidStruct).length
    ∧ ∃ e, ([{ pieceIndex := 0, metadata := [] }, { pieceIndex := 1, metadata := [] }] :
        List PieceMetadataEntry)[1]? = some e ∧ e.pieceIndex = 1 := by
  have h := buildPieces_pieceMetadata_invariant sampleEnv.asPieceCID
    [PieceInput.parsed { bytes := [1, 85] }, PieceInput.parsed { bytes := [9] }] []
    [{ data := [1, 85] }, { data := [9] }]
    [{ pieceIndex := 0, metadata := [] }, { pieceIndex := 1, metadata := [] }]
    (by decide)
  exact ⟨h.1, h.2 1 (by decide)⟩

/-- C10: an explicitly supplied empty metadata array on a non-empty
piece list is treated exactly like an omitted one — the call proceeds
with one empty metadata list per piece and never fails with
InvalidArgument. -/
theorem signAddPieces_explicit_empty_metadata_ok (env : SignEnv) (domain : TypedDataDomain)
    (cdsId fpId : Int) (ps : List PieceInput) (_hne : ps ≠ []) :
    signAddPieces env domain cdsId fpId ps []
        = signAddPiecesBody env domain cdsId fpId ps (List.replicate ps.length [])
    ∧ ∀ msg, signAddPieces env domain cdsId fpId ps []
        ≠ .error (.InvalidArgument msg) := by
  refine ⟨rfl, ?_⟩
  intro msg h
  have hbody : signAddPiecesBody env domain cdsId fpId ps (List.replicate ps.length [])
      = .error (.InvalidArgument msg) := h
  unfold signAddPiecesBody at hbody
  cases hb : buildPieces env.asPieceCID 0 ps (List.replicate ps.length []) with
  | error e =>
    rw [hb] at hbody
    have he := Except.error.inj hbody
    rw [he] at hb
    exact buildPieces_no_invalidArgument env.asPieceCID ps 0 _ msg hb
  | ok pr => rw [hb] at hbody; exact Except.noConfusion hbody

/-- Witness for C10: a one-piece list with an explicitly empty metadata
array succeeds rather than raising InvalidArgument. -/
theorem signAddPieces_explicit_empty_metadata_ok_check :
    signAddPieces sampleEnv sampleDomain 0 1 [PieceInput.parsed { bytes := [1, 85] }] []
        = signAddPiecesBody sampleEnv sampleDomain 0 1 [PieceInput.parsed { bytes := [1, 85] }]
            (List.replicate [PieceInput.parsed { bytes := [1, 85] }].length [])
    ∧ ∀ msg, signAddPieces sampleEnv sampleDomain 0 1 [PieceInput.parsed { bytes := [1, 85] }] []
        ≠ .error (.InvalidArgument msg) := by
  have h := signAddPieces_explicit_empty_metadata_ok sampleEnv sampleDomain 0 1
    [PieceInput.parsed { bytes := [1, 85] }] (by decide)
  exact h

end Synapse

namespace Synapse

/-- C8 counterexample: the root name toString is not a key of the
schema registry, yet the call does not fail with SchemaNotFound: the JS
`in` guard passes through the prototype chain, the property access
returns the inherited prototype function, and `args.map(...)` throws a
TypeError. -/
theorem getEIP712TypeString_toString_typeError :
    EIP712_TYPES.lookup "toString" = none
    ∧ getEIP712TypeString "toString" = .error (.TypeErrorThrown "toString")
    ∧ ∀ r, getEIP712TypeString "toString" ≠ .error (.SchemaNotFound r) := by
  have h2 : getEIP712TypeString "toString" = .error (.TypeErrorThrown "toString") := by decide
  refine ⟨by decide, h2, ?_⟩
  intro r hc
  rw [h2] at hc
  exact TypeStringError.noConfusion (Except.error.inj hc)

/-- C8 amended: encodeType fails with SchemaNotFound if and only if the
root name fails the JS `in` test — it is neither an own key of the
schema registry nor an inherited `Object.prototype` property name; for
every own key it returns a string without failing; and for a non-key
name inherited from `Object.prototype` it throws a TypeError, not
SchemaNotFound. -/
theorem getEIP712TypeString_schemaNotFound_iff (rootType : String) :
    (getEIP712TypeString rootType = .error (.SchemaNotFound rootType) ↔
      (EIP712_TYPES.lookup rootType = none ∧ rootType ∉ OBJECT_PROTOTYPE_KEYS))
    ∧ ((EIP712_TYPES.lookup rootType).isSome →
        ∃ s, getEIP712TypeString rootType = .ok s)
    ∧ (EIP712_TYPES.lookup rootType = none → rootType ∈ OBJECT_PROTOTYPE_KEYS →
        getEIP712TypeString rootType = .error (.TypeErrorThrown rootType)) := by
  have hok : (EIP712_TYPES.lookup rootType).isSome →
      ∃ s, getEIP712TypeString rootType = .ok s := by
    intro hs
    have hmem := lookup_isSome_mem_keys EIP712_TYPES rootType hs
    simp only [EIP712_TYPES, List.map_cons, List.map_nil, List.mem_cons,
      List.not_mem_nil, or_false] at hmem
    rcases hmem with rfl | rfl | rfl | rfl | rfl | rfl | rfl
    · exact ⟨typeStringOrEmpty "MetadataEntry", by decide⟩
    · exact ⟨typeStringOrEmpty "CreateDataSet", by decide⟩
    · exact ⟨typeStringOrEmpty "Cid", by decide⟩
    · exact ⟨typeStringOrEmpty "PieceMetadata", by decide⟩
    · exact ⟨typeStringOrEmpty "AddPieces", by decide⟩
    · exact ⟨typeStringOrEmpty "SchedulePieceRemovals", by decide⟩
    · exact ⟨typeStringOrEmpty "DeleteDataSet", by decide⟩
  have hte : EIP712_TYPES.lookup rootType = none → rootType ∈ OBJECT_PROTOTYPE_KEYS →
      getEIP712TypeString rootType = .error (.TypeErrorThrown rootType) := by
    intro hnone hproto
    have hjs : jsGetEIP712 rootType = some .protoValue := by
      unfold jsGetEIP712
      rw [hnone, if_pos hproto]
    have hin : jsInEIP712Types rootType = true := by
      unfold jsInEIP712Types
      rw [hjs]
      rfl
    have hc8 : collectType 8 rootType [] = .error (.TypeErrorThrown rootType) := by
      show collectType (7 + 1) rootType [] = _
      unfold collectType
      rw [hjs]
      rfl
    unfold getEIP712TypeString
    rw [if_neg (fun hcon => hcon hin), hc8]
  refine ⟨?_, hok, hte⟩
  constructor
  · intro h
    cases hE : EIP712_TYPES.lookup rootType with
    | some args =>
      obtain ⟨s, hs⟩ := hok (by rw [hE]; rfl)
      rw [hs] at h
      exact Except.noConfusion h
    | none =>
      by_cases hp : rootType ∈ OBJECT_PROTOTYPE_KEYS
      · rw [hte hE hp] at h
        exact TypeStringError.noConfusion (Except.error.inj h)
      · exact ⟨rfl, hp⟩
  · intro hE
    obtain ⟨hnone, hnp⟩ := hE
    have hjs : jsGetEIP712 rootType = none := by
      unfold jsGetEIP712
      rw [hnone, if_neg hnp]
    have hin : jsInEIP712Types rootType = false := by
      unfold jsInEIP712Types
      rw [hjs]
      rfl
    unfold getEIP712TypeString
    rw [if_pos (by rw [hin]; exact Bool.false_ne_true)]

/-- Witness for the amended C8: evaluated at a registered root type, at
a name with no binding anywhere, and at an inherited prototype name. -/
theorem getEIP712TypeString_schemaNotFound_iff_check :
    (∃ s, getEIP712TypeString "DeleteDataSet" = .ok s)
    ∧ getEIP712TypeString "NonExistentType"
        = .error (.SchemaNotFound "NonExistentType")
    ∧ getEIP712TypeString "valueOf" = .error (.TypeErrorThrown "valueOf") := by
  refine ⟨(getEIP712TypeString_schemaNotFound_iff "DeleteDataSet").2.1 (by decide),
    (getEIP712TypeString_schemaNotFound_iff "NonExistentType").1.mpr ⟨by decide, by decide⟩,
    (getEIP712TypeString_schemaNotFound_iff "valueOf").2.2 (by decide) (by decide)⟩

/-- C9: encodeType is deterministic and side-effect free — it reads only
the immutable registry, so two calls with the same root type return
byte-identical strings. -/
theorem getEIP712TypeString_deterministic (rootType s1 s2 : String)
    (h1 : getEIP712TypeString rootType = .ok s1)
    (h2 : getEIP712TypeString rootType = .ok s2) : s1 = s2 :=
  Except.ok.inj (h1.symm.trans h2)

/-- Witness for C9: two evaluations at the AddPieces root. -/
theorem getEIP712TypeString_deterministic_check :
    "AddPieces(uint256 clientDataSetId,uint256 firstAdded,Cid[] pieceData,PieceMetadata[] pieceMetadata)Cid(bytes data)MetadataEntry(string key,string value)PieceMetadata(uint256 pieceIndex,MetadataEntry[] metadata)"
      = "AddPieces(uint256 clientDataSetId,uint256 firstAdded,Cid[] pieceData,PieceMetadata[] pieceMetadata)Cid(bytes data)MetadataEntry(string key,string value)PieceMetadata(uint256 pieceIndex,MetadataEntry[] metadata)" :=
  getEIP712TypeString_deterministic "AddPieces" _ _ (by decide) (by decide)

end Synapse
